import Mathlib

/-!
Shallow embedding of the filter core of `src/scale_publisher_fixed.py`.

The source file defines `SimpleKalmanFilter` in full (lines 69-90) and the
constructor of `PositionVelocityKalmanFilter` (lines 92-100); the file ends
there.  Python floats are modelled as rational numbers (every arithmetic
operation the claims touch is exact field arithmetic); the mutation of a filter
object by `update` is modelled by returning the new state together with the
returned value.
-/

namespace ScaleFilter

/-- State of `SimpleKalmanFilter` (src/scale_publisher_fixed.py, lines 69-75):
the two constructor parameters together with the mutable fields `estimate`,
`error_estimate` and `initialized`. -/
structure SimpleKalmanFilter where
  process_noise : ℚ
  measurement_noise : ℚ
  estimate : ℚ
  error_estimate : ℚ
  initialized : Bool

/-- `SimpleKalmanFilter.__init__` (lines 70-75): stores the two noise
parameters unvalidated and sets `estimate = 0.0`, `error_estimate = 1.0`,
`initialized = False`. -/
def SimpleKalmanFilter.init (process_noise measurement_noise : ℚ) :
    SimpleKalmanFilter :=
  { process_noise := process_noise
    measurement_noise := measurement_noise
    estimate := 0
    error_estimate := 1
    initialized := false }

/-- `SimpleKalmanFilter.update` (lines 77-90).  Returns the new state paired
with the value the Python method returns. -/
def SimpleKalmanFilter.update (f : SimpleKalmanFilter) (measurement : ℚ) :
    SimpleKalmanFilter × ℚ :=
  if f.initialized = false then
    let f' := { f with estimate := measurement, initialized := true }
    (f', f'.estimate)
  else
    let predicted_estimate := f.estimate
    let predicted_error := f.error_estimate + f.process_noise
    let kalman_gain := predicted_error / (predicted_error + f.measurement_noise)
    let new_estimate := predicted_estimate + kalman_gain * (measurement - predicted_estimate)
    let f' := { f with estimate := new_estimate,
                       error_estimate := (1 - kalman_gain) * predicted_error }
    (f', f'.estimate)

/-- The state reached from `f` by the measurement sequence `ms` (successive
`update` calls, discarding the returned values). -/
def SimpleKalmanFilter.run (f : SimpleKalmanFilter) (ms : List ℚ) :
    SimpleKalmanFilter :=
  ms.foldl (fun s m => (s.update m).1) f

/-- The list of values returned by the successive `update` calls on the
measurement sequence. -/
def SimpleKalmanFilter.outputs : SimpleKalmanFilter → List ℚ → List ℚ
  | _, [] => []
  | f, m :: ms => (f.update m).2 :: (f.update m).1.outputs ms

/-- The quantity `predicted_error` computed at line 84 from the state `f`. -/
def SimpleKalmanFilter.predictedError (f : SimpleKalmanFilter) : ℚ :=
  f.error_estimate + f.process_noise

/-- The Kalman gain computed at line 86 from the state `f`. -/
def SimpleKalmanFilter.gain (f : SimpleKalmanFilter) : ℚ :=
  f.predictedError / (f.predictedError + f.measurement_noise)

/-- State of `PositionVelocityKalmanFilter` as far as its constructor builds
it (lines 92-100; the source file ends inside this class): sample interval,
state vector `x`, and the four model matrices, each a NumPy array modelled as
a function on index pairs. -/
structure PositionVelocityKalmanFilter where
  dt : ℚ
  x : Fin 2 → ℚ
  F : Fin 2 → Fin 2 → ℚ
  H : Fin 1 → Fin 2 → ℚ
  Q : Fin 2 → Fin 2 → ℚ
  R : Fin 1 → Fin 1 → ℚ

/-- `PositionVelocityKalmanFilter.__init__` (lines 93-100). -/
def PositionVelocityKalmanFilter.init (dt process_noise measurement_noise : ℚ) :
    PositionVelocityKalmanFilter :=
  { dt := dt
    x := ![0, 0]
    F := ![![1, dt], ![0, 1]]
    H := ![![1, 0]]
    Q := ![![process_noise * dt ^ 4 / 4, process_noise * dt ^ 3 / 2],
           ![process_noise * dt ^ 3 / 2, process_noise * dt ^ 2]]
    R := ![![measurement_noise]] }

/-- The process-noise covariance exactly as the spec writes it:
`Q = process_noise · [[dt⁴/4, dt³/2],[dt³/2, dt²]]` (a scalar multiple of the
bracketed matrix). -/
def pvSpecQ (dt process_noise : ℚ) : Fin 2 → Fin 2 → ℚ :=
  fun i j => process_noise * (![![dt ^ 4 / 4, dt ^ 3 / 2],
                                ![dt ^ 3 / 2, dt ^ 2]] i j)

/-- Modelled from the spec: the Moving Average filter of §4.1, whose code is
not under src/ (the source file ends inside
`PositionVelocityKalmanFilter.__init__`).  State: a fixed-capacity FIFO
window of the last `window_size` raw values, kept newest first. -/
structure MovingAverageFilter where
  window_size : ℕ
  window : List ℚ

/-- Modelled from the spec: §4.1 `update(x)`: push `x`, evict the oldest if
the size exceeds the window, and return the arithmetic mean of the current
contents (before the window fills, the mean of however many samples
exist). -/
def MovingAverageFilter.update (f : MovingAverageFilter) (x : ℚ) :
    MovingAverageFilter × ℚ :=
  let w := (x :: f.window).take f.window_size
  ({ f with window := w }, w.sum / (w.length : ℚ))

/-- The Moving Average state reached from `f` by the input sequence `xs`. -/
def MovingAverageFilter.run (f : MovingAverageFilter) (xs : List ℚ) :
    MovingAverageFilter :=
  xs.foldl (fun s x => (s.update x).1) f

/-- The list of values returned by successive Moving Average updates. -/
def MovingAverageFilter.outputs : MovingAverageFilter → List ℚ → List ℚ
  | _, [] => []
  | f, x :: xs => (f.update x).2 :: (f.update x).1.outputs xs

/-- Modelled from the spec: the Exponential Moving Average filter of §4.2,
whose code is not under src/.  State: `estimate`, `initialized`; parameter
`alpha` fixed at construction. -/
structure ExponentialMovingAverageFilter where
  alpha : ℚ
  estimate : ℚ
  initialized : Bool

/-- Modelled from the spec: §4.2 `update(x)`: if uninitialized, set
`estimate = x` and mark initialized; else
`estimate = alpha*x + (1 - alpha)*estimate`.  Returns the estimate. -/
def ExponentialMovingAverageFilter.update (f : ExponentialMovingAverageFilter)
    (x : ℚ) : ExponentialMovingAverageFilter × ℚ :=
  if f.initialized = false then
    ({ f with estimate := x, initialized := true }, x)
  else
    let e := f.alpha * x + (1 - f.alpha) * f.estimate
    ({ f with estimate := e }, e)

/-- The list of values returned by successive EMA updates. -/
def ExponentialMovingAverageFilter.outputs :
    ExponentialMovingAverageFilter → List ℚ → List ℚ
  | _, [] => []
  | f, x :: xs => (f.update x).2 :: (f.update x).1.outputs xs

end ScaleFilter

namespace ScaleFilter

/-- C1: for every initialized `SimpleKalmanFilter` with state
`(estimate, error_estimate)` and parameters `process_noise`,
`measurement_noise`, `update m` computes `predicted_error` and the gain `K`
by the stated formulas, sets the new estimate to `e + K*(m - e)` and the new
`error_estimate` to `(1 - K)*predicted_error`, and returns the new
estimate. -/
theorem simpleKalman_update_formulas (f : SimpleKalmanFilter) (m : ℚ)
    (h : f.initialized = true) :
    (f.update m).1.estimate =
      f.estimate + ((f.error_estimate + f.process_noise) /
        ((f.error_estimate + f.process_noise) + f.measurement_noise)) *
        (m - f.estimate) ∧
    (f.update m).1.error_estimate =
      (1 - (f.error_estimate + f.process_noise) /
        ((f.error_estimate + f.process_noise) + f.measurement_noise)) *
        (f.error_estimate + f.process_noise) ∧
    (f.update m).2 = (f.update m).1.estimate := by
  simp [SimpleKalmanFilter.update, h]

/-- Witness for C1 at the concrete initialized state
`⟨1, 10, 5, 1, true⟩` and measurement `7`. -/
theorem simpleKalman_update_formulas_witness :
    (((⟨1, 10, 5, 1, true⟩ : SimpleKalmanFilter).update 7).1.estimate =
      5 + ((1 + 1) / ((1 + 1) + 10)) * (7 - 5) ∧
    ((⟨1, 10, 5, 1, true⟩ : SimpleKalmanFilter).update 7).1.error_estimate =
      (1 - (1 + 1) / ((1 + 1) + 10)) * (1 + 1) ∧
    ((⟨1, 10, 5, 1, true⟩ : SimpleKalmanFilter).update 7).2 =
      ((⟨1, 10, 5, 1, true⟩ : SimpleKalmanFilter).update 7).1.estimate) :=
  simpleKalman_update_formulas ⟨1, 10, 5, 1, true⟩ 7 rfl

/-- C4 counterexample: construction with both noise parameters negative does
not fail: `SimpleKalmanFilter.init (-1) (-1)` is an ordinary instance that
stores the negative parameters, and calling `update 5` on it succeeds and
returns `5`. -/
theorem simpleKalman_init_negative_noise_usable :
    SimpleKalmanFilter.init (-1) (-1) =
      (⟨-1, -1, 0, 1, false⟩ : SimpleKalmanFilter) ∧
    ((SimpleKalmanFilter.init (-1) (-1)).update 5).2 = 5 := by
  constructor
  · rfl
  · simp [SimpleKalmanFilter.init, SimpleKalmanFilter.update]

/-- C4 amended: construction performs no validation and cannot fail:
`SimpleKalmanFilter.__init__` stores any noise parameters, negative ones
included, and the resulting instance is usable (its first `update` returns
the measurement). -/
theorem simpleKalman_init_no_validation (q r m : ℚ) :
    SimpleKalmanFilter.init q r = (⟨q, r, 0, 1, false⟩ : SimpleKalmanFilter) ∧
    ((SimpleKalmanFilter.init q r).update m).2 = m := by
  constructor
  · rfl
  · simp [SimpleKalmanFilter.init, SimpleKalmanFilter.update]

/-- C5: the model matrices fixed by `PositionVelocityKalmanFilter.__init__`
are exactly `F = [[1, dt],[0, 1]]`, `H = [[1, 0]]`,
`Q = process_noise · [[dt⁴/4, dt³/2],[dt³/2, dt²]]` and
`R = [[measurement_noise]]`. -/
theorem pvKalman_init_matrices (dt q r : ℚ) :
    (PositionVelocityKalmanFilter.init dt q r).F = ![![1, dt], ![0, 1]] ∧
    (PositionVelocityKalmanFilter.init dt q r).H = ![![1, 0]] ∧
    (PositionVelocityKalmanFilter.init dt q r).Q = pvSpecQ dt q ∧
    (PositionVelocityKalmanFilter.init dt q r).R = ![![r]] := by
  refine ⟨rfl, rfl, ?_, rfl⟩
  funext i j
  fin_cases i <;> fin_cases j <;>
    simp [PositionVelocityKalmanFilter.init, pvSpecQ] <;> ring

/-- C6: on a freshly constructed `SimpleKalmanFilter` the first `update m`
produces the state with `estimate = m`, `error_estimate = 1.0` and
`initialized = true`, and returns `m` — no predict/correct step is
performed. -/
theorem simpleKalman_first_update (q r m : ℚ) :
    (SimpleKalmanFilter.init q r).update m =
      ((⟨q, r, m, 1, true⟩ : SimpleKalmanFilter), m) := by
  simp [SimpleKalmanFilter.init, SimpleKalmanFilter.update]

lemma SimpleKalmanFilter.run_nil (s : SimpleKalmanFilter) : s.run [] = s := rfl

lemma SimpleKalmanFilter.run_cons (s : SimpleKalmanFilter) (m : ℚ)
    (ms : List ℚ) : s.run (m :: ms) = (s.update m).1.run ms := rfl

lemma SimpleKalmanFilter.update_process_noise (s : SimpleKalmanFilter)
    (m : ℚ) : (s.update m).1.process_noise = s.process_noise := by
  unfold SimpleKalmanFilter.update; split <;> rfl

lemma SimpleKalmanFilter.update_measurement_noise (s : SimpleKalmanFilter)
    (m : ℚ) : (s.update m).1.measurement_noise = s.measurement_noise := by
  unfold SimpleKalmanFilter.update; split <;> rfl

lemma SimpleKalmanFilter.run_process_noise (ms : List ℚ) :
    ∀ s : SimpleKalmanFilter, (s.run ms).process_noise = s.process_noise := by
  induction ms with
  | nil => intro s; rfl
  | cons m t ih =>
      intro s
      rw [SimpleKalmanFilter.run_cons, ih, SimpleKalmanFilter.update_process_noise]

lemma SimpleKalmanFilter.run_measurement_noise (ms : List ℚ) :
    ∀ s : SimpleKalmanFilter, (s.run ms).measurement_noise = s.measurement_noise := by
  induction ms with
  | nil => intro s; rfl
  | cons m t ih =>
      intro s
      rw [SimpleKalmanFilter.run_cons, ih, SimpleKalmanFilter.update_measurement_noise]

/-- One update keeps `error_estimate` non-negative when the noise parameters
are admissible. -/
lemma SimpleKalmanFilter.update_error_nonneg (s : SimpleKalmanFilter) (m : ℚ)
    (hq : 0 ≤ s.process_noise) (hr : 0 < s.measurement_noise)
    (he : 0 ≤ s.error_estimate) :
    0 ≤ (s.update m).1.error_estimate := by
  unfold SimpleKalmanFilter.update
  split
  · simpa using he
  · simp only
    have hp : 0 ≤ s.error_estimate + s.process_noise := add_nonneg he hq
    have hpr : 0 < s.error_estimate + s.process_noise + s.measurement_noise := by
      linarith
    have hK : (s.error_estimate + s.process_noise) /
        (s.error_estimate + s.process_noise + s.measurement_noise) ≤ 1 := by
      rw [div_le_one hpr]; linarith
    have h1K : 0 ≤ 1 - (s.error_estimate + s.process_noise) /
        (s.error_estimate + s.process_noise + s.measurement_noise) := by linarith
    exact mul_nonneg h1K hp

lemma SimpleKalmanFilter.run_error_nonneg (ms : List ℚ) :
    ∀ s : SimpleKalmanFilter, 0 ≤ s.process_noise → 0 < s.measurement_noise →
    0 ≤ s.error_estimate → 0 ≤ (s.run ms).error_estimate := by
  induction ms with
  | nil => intro s _ _ he; exact he
  | cons m t ih =>
      intro s hq hr he
      rw [SimpleKalmanFilter.run_cons]
      exact ih _ (by rw [SimpleKalmanFilter.update_process_noise]; exact hq)
        (by rw [SimpleKalmanFilter.update_measurement_noise]; exact hr)
        (SimpleKalmanFilter.update_error_nonneg s m hq hr he)

/-- Gain and error bounds for one update out of any admissible state. -/
lemma SimpleKalmanFilter.gain_error_bounds_of (s : SimpleKalmanFilter) (m : ℚ)
    (hq : 0 ≤ s.process_noise) (hr : 0 < s.measurement_noise)
    (he : 0 ≤ s.error_estimate) :
    0 ≤ s.gain ∧ s.gain ≤ 1 ∧
    0 ≤ (s.update m).1.error_estimate ∧
    (s.update m).1.error_estimate ≤ s.predictedError := by
  have hp : 0 ≤ s.predictedError := add_nonneg he hq
  have hpr : 0 < s.predictedError + s.measurement_noise := by
    unfold SimpleKalmanFilter.predictedError at hp ⊢; linarith
  have hg0 : 0 ≤ s.gain := div_nonneg hp hpr.le
  have hg1 : s.gain ≤ 1 := by
    unfold SimpleKalmanFilter.gain
    rw [div_le_one hpr]
    unfold SimpleKalmanFilter.predictedError; linarith
  refine ⟨hg0, hg1, SimpleKalmanFilter.update_error_nonneg s m hq hr he, ?_⟩
  unfold SimpleKalmanFilter.update
  split
  · unfold SimpleKalmanFilter.predictedError
    simpa using by linarith
  · simp only
    have hgd : s.gain = (s.error_estimate + s.process_noise) /
        (s.error_estimate + s.process_noise + s.measurement_noise) := rfl
    have hpd : s.predictedError = s.error_estimate + s.process_noise := rfl
    rw [← hgd, ← hpd]
    nlinarith [mul_nonneg hg0 hp]

/-- One update's returned state has `error_estimate` and `initialized`
depending only on the previous `error_estimate`, `initialized` and the
parameters — not on the measurement or the estimate. -/
lemma SimpleKalmanFilter.update_error_congr (s1 s2 : SimpleKalmanFilter)
    (m n : ℚ)
    (hq : s1.process_noise = s2.process_noise)
    (hr : s1.measurement_noise = s2.measurement_noise)
    (he : s1.error_estimate = s2.error_estimate)
    (hi : s1.initialized = s2.initialized) :
    (s1.update m).1.error_estimate = (s2.update n).1.error_estimate ∧
    (s1.update m).1.initialized = (s2.update n).1.initialized := by
  cases hb : s2.initialized with
  | false =>
      have hb1 : s1.initialized = false := by rw [hi, hb]
      simp [SimpleKalmanFilter.update, hb, hb1, he]
  | true =>
      have hb1 : s1.initialized = true := by rw [hi, hb]
      simp [SimpleKalmanFilter.update, hb, hb1, he, hq, hr]

lemma SimpleKalmanFilter.run_error_congr (ms1 : List ℚ) :
    ∀ (ms2 : List ℚ) (s1 s2 : SimpleKalmanFilter), ms1.length = ms2.length →
    s1.process_noise = s2.process_noise →
    s1.measurement_noise = s2.measurement_noise →
    s1.error_estimate = s2.error_estimate →
    s1.initialized = s2.initialized →
    (s1.run ms1).error_estimate = (s2.run ms2).error_estimate ∧
    (s1.run ms1).initialized = (s2.run ms2).initialized := by
  induction ms1 with
  | nil =>
      intro ms2 s1 s2 hlen _ _ he hi
      have : ms2 = [] := List.length_eq_zero.mp hlen.symm
      subst this
      exact ⟨he, hi⟩
  | cons m t ih =>
      intro ms2 s1 s2 hlen hq hr he hi
      match ms2 with
      | [] => simp at hlen
      | n :: u =>
          rw [SimpleKalmanFilter.run_cons, SimpleKalmanFilter.run_cons]
          have hstep := SimpleKalmanFilter.update_error_congr s1 s2 m n hq hr he hi
          refine ih u _ _ (by simpa using hlen) ?_ ?_ hstep.1 hstep.2
          · rw [SimpleKalmanFilter.update_process_noise,
              SimpleKalmanFilter.update_process_noise, hq]
          · rw [SimpleKalmanFilter.update_measurement_noise,
              SimpleKalmanFilter.update_measurement_noise, hr]

/-- One update's returned value depends only on the full previous state:
equal parameters, estimate, error estimate and initialization flag give
equal outputs. -/
lemma SimpleKalmanFilter.update_output_congr (s1 s2 : SimpleKalmanFilter)
    (m : ℚ)
    (hq : s1.process_noise = s2.process_noise)
    (hr : s1.measurement_noise = s2.measurement_noise)
    (hest : s1.estimate = s2.estimate)
    (he : s1.error_estimate = s2.error_estimate)
    (hi : s1.initialized = s2.initialized) :
    (s1.update m).2 = (s2.update m).2 := by
  cases hb : s2.initialized with
  | false =>
      have hb1 : s1.initialized = false := by rw [hi, hb]
      simp [SimpleKalmanFilter.update, hb, hb1]
  | true =>
      have hb1 : s1.initialized = true := by rw [hi, hb]
      simp [SimpleKalmanFilter.update, hb, hb1, he, hq, hr, hest]

/-- C2 counterexample: the claim quantifies over every `SimpleKalmanFilter`,
but the constructor accepts negative noise.  With `process_noise = 0` and
`measurement_noise = -1/2`, after the initializing update the next update
computes gain `2 ∉ [0,1]` and a negative `error_estimate`. -/
theorem simpleKalman_gain_counterexample :
    ((SimpleKalmanFilter.init 0 (-(1/2))).run [5]).gain = 2 ∧
    ¬ (0 ≤ (((SimpleKalmanFilter.init 0 (-(1/2))).run [5]).update 5).1.error_estimate) := by
  constructor <;>
    norm_num [SimpleKalmanFilter.init, SimpleKalmanFilter.run,
      SimpleKalmanFilter.update, SimpleKalmanFilter.gain,
      SimpleKalmanFilter.predictedError]

/-- C2 amended: for every `SimpleKalmanFilter` constructed with
`process_noise ≥ 0` and `measurement_noise > 0`, in every reachable state the
Kalman gain lies in `[0,1]`, and the `error_estimate` resulting from an
update is non-negative and does not exceed that update's
`predicted_error`. -/
theorem simpleKalman_gain_error_bounds (q r : ℚ) (hq : 0 ≤ q) (hr : 0 < r)
    (ms : List ℚ) (m : ℚ) :
    0 ≤ ((SimpleKalmanFilter.init q r).run ms).gain ∧
    ((SimpleKalmanFilter.init q r).run ms).gain ≤ 1 ∧
    0 ≤ (((SimpleKalmanFilter.init q r).run ms).update m).1.error_estimate ∧
    (((SimpleKalmanFilter.init q r).run ms).update m).1.error_estimate ≤
      ((SimpleKalmanFilter.init q r).run ms).predictedError := by
  apply SimpleKalmanFilter.gain_error_bounds_of
  · rw [SimpleKalmanFilter.run_process_noise]; exact hq
  · rw [SimpleKalmanFilter.run_measurement_noise]; exact hr
  · exact SimpleKalmanFilter.run_error_nonneg ms _ hq hr (by norm_num [SimpleKalmanFilter.init])

/-- Witness for the amended C2 at `q = 1`, `r = 10`, history `[5, 6]`,
next measurement `7`. -/
theorem simpleKalman_gain_error_bounds_witness :
    0 ≤ ((SimpleKalmanFilter.init 1 10).run [5, 6]).gain ∧
    ((SimpleKalmanFilter.init 1 10).run [5, 6]).gain ≤ 1 ∧
    0 ≤ (((SimpleKalmanFilter.init 1 10).run [5, 6]).update 7).1.error_estimate ∧
    (((SimpleKalmanFilter.init 1 10).run [5, 6]).update 7).1.error_estimate ≤
      ((SimpleKalmanFilter.init 1 10).run [5, 6]).predictedError :=
  simpleKalman_gain_error_bounds 1 10 (by norm_num) (by norm_num) [5, 6] 7

/-- C3 counterexample: two filters with the same parameters `Q = 1, R = 10`
reach the same estimate `5` by the histories `[5]` and `[5, 5]`, yet the next
update on the same measurement `17` returns different values (`7` versus
`143/19`), because the gain also depends on `error_estimate`, which differs
with history length. -/
theorem simpleKalman_markov_counterexample :
    ((SimpleKalmanFilter.init 1 10).run [5]).estimate =
      ((SimpleKalmanFilter.init 1 10).run [5, 5]).estimate ∧
    (((SimpleKalmanFilter.init 1 10).run [5]).update 17).2 ≠
      (((SimpleKalmanFilter.init 1 10).run [5, 5]).update 17).2 := by
  constructor <;>
    norm_num [SimpleKalmanFilter.init, SimpleKalmanFilter.run,
      SimpleKalmanFilter.update]

/-- C3 amended: two `SimpleKalmanFilter` instances with the same construction
parameters whose histories of the same length have brought them to the same
estimate value return identical outputs on the same next measurement. -/
theorem simpleKalman_markov_same_length (q r : ℚ) (ms1 ms2 : List ℚ) (m : ℚ)
    (hlen : ms1.length = ms2.length)
    (hest : ((SimpleKalmanFilter.init q r).run ms1).estimate =
            ((SimpleKalmanFilter.init q r).run ms2).estimate) :
    (((SimpleKalmanFilter.init q r).run ms1).update m).2 =
      (((SimpleKalmanFilter.init q r).run ms2).update m).2 := by
  have hcongr := SimpleKalmanFilter.run_error_congr ms1 ms2
    (SimpleKalmanFilter.init q r) (SimpleKalmanFilter.init q r)
    hlen rfl rfl rfl rfl
  exact SimpleKalmanFilter.update_output_congr _ _ m
    (by rw [SimpleKalmanFilter.run_process_noise, SimpleKalmanFilter.run_process_noise])
    (by rw [SimpleKalmanFilter.run_measurement_noise, SimpleKalmanFilter.run_measurement_noise])
    hest hcongr.1 hcongr.2

/-- Witness for the amended C3: the distinct length-2 histories `[3, 5]` and
`[4, 0]` both reach estimate `10/3` with `Q = 1, R = 10`, and the next update
at measurement `17` returns the same value for both. -/
theorem simpleKalman_markov_same_length_witness :
    (((SimpleKalmanFilter.init 1 10).run [3, 5]).update 17).2 =
      (((SimpleKalmanFilter.init 1 10).run [4, 0]).update 17).2 :=
  simpleKalman_markov_same_length 1 10 [3, 5] [4, 0] 17 rfl
    (by norm_num [SimpleKalmanFilter.init, SimpleKalmanFilter.run,
      SimpleKalmanFilter.update])

/-- C9: for every `SimpleKalmanFilter` constructed with `process_noise ≥ 0`
and `measurement_noise > 0`, in every reachable state the divisor
`predicted_error + measurement_noise` of the gain computation is strictly
positive, so the division in `update` is always well-defined. -/
theorem simpleKalman_divisor_positive (q r : ℚ) (hq : 0 ≤ q) (hr : 0 < r)
    (ms : List ℚ) :
    0 < ((SimpleKalmanFilter.init q r).run ms).predictedError +
      ((SimpleKalmanFilter.init q r).run ms).measurement_noise := by
  have he : 0 ≤ ((SimpleKalmanFilter.init q r).run ms).error_estimate :=
    SimpleKalmanFilter.run_error_nonneg ms _ hq hr (by norm_num [SimpleKalmanFilter.init])
  have hq' : ((SimpleKalmanFilter.init q r).run ms).process_noise = q :=
    SimpleKalmanFilter.run_process_noise ms _
  have hr' : ((SimpleKalmanFilter.init q r).run ms).measurement_noise = r :=
    SimpleKalmanFilter.run_measurement_noise ms _
  unfold SimpleKalmanFilter.predictedError
  rw [hq', hr']
  linarith

/-- Witness for C9 at `q = 1`, `r = 10`, history `[5, 6, 7]`. -/
theorem simpleKalman_divisor_positive_witness :
    0 < ((SimpleKalmanFilter.init 1 10).run [5, 6, 7]).predictedError +
      ((SimpleKalmanFilter.init 1 10).run [5, 6, 7]).measurement_noise :=
  simpleKalman_divisor_positive 1 10 (by norm_num) (by norm_num) [5, 6, 7]

/-- C10: two `SimpleKalmanFilter` instances with the same construction
parameters have equal `error_estimate` after the same number `k ≥ 1` of
updates, regardless of the measurement values supplied. -/
theorem simpleKalman_error_measurement_independent (q r : ℚ)
    (ms1 ms2 : List ℚ) (hlen : ms1.length = ms2.length)
    (hpos : 1 ≤ ms1.length) :
    ((SimpleKalmanFilter.init q r).run ms1).error_estimate =
      ((SimpleKalmanFilter.init q r).run ms2).error_estimate :=
  (SimpleKalmanFilter.run_error_congr ms1 ms2
    (SimpleKalmanFilter.init q r) (SimpleKalmanFilter.init q r)
    hlen rfl rfl rfl rfl).1

/-- Witness for C10: the histories `[3, 100]` and `[7, -2]` give the same
`error_estimate`. -/
theorem simpleKalman_error_measurement_independent_witness :
    ((SimpleKalmanFilter.init 1 10).run [3, 100]).error_estimate =
      ((SimpleKalmanFilter.init 1 10).run [7, -2]).error_estimate :=
  simpleKalman_error_measurement_independent 1 10 [3, 100] [7, -2] rfl
    (by norm_num)

lemma take_absorb (N : ℕ) (l m : List ℚ) :
    (l ++ m.take N).take N = (l ++ m).take N := by
  rw [List.take_append_eq_append_take, List.take_append_eq_append_take,
    List.take_take, min_eq_left (Nat.sub_le N l.length)]

lemma take_append_replicate_self (N : ℕ) (c : ℚ) (w : List ℚ) :
    (List.replicate N c ++ w).take N = List.replicate N c := by
  rw [List.take_append_eq_append_take, List.take_replicate, min_self,
    List.length_replicate, Nat.sub_self, List.take_zero, List.append_nil]

/-- Mean of a constant window of positive size. -/
lemma mean_replicate (N : ℕ) (hN : 1 ≤ N) (c : ℚ) :
    (List.replicate N c).sum / ((List.replicate N c).length : ℚ) = c := by
  rw [List.sum_replicate, List.length_replicate, nsmul_eq_mul]
  exact mul_div_cancel_left₀ c (Nat.cast_ne_zero.mpr (by omega))

/-- Mean of a window of size `N` holding one copy of `v` and `N - 1` copies
of `c` deviates from `c` by exactly `|v - c| / N`. -/
lemma mean_outlier (N a b : ℕ) (c v : ℚ) (hab : a + b + 1 = N) :
    |(List.replicate a c ++ v :: List.replicate b c).sum /
      (((List.replicate a c ++ v :: List.replicate b c).length : ℕ) : ℚ) - c| =
      |v - c| / (N : ℚ) := by
  have hq : (a : ℚ) + (b : ℚ) + 1 = (N : ℚ) := by exact_mod_cast hab
  have hN0 : (0 : ℚ) < (N : ℚ) := by
    have h : 0 < N := by omega
    exact_mod_cast h
  have hlen : (List.replicate a c ++ v :: List.replicate b c).length = N := by
    simp only [List.length_append, List.length_cons, List.length_replicate]
    omega
  have hsum : (List.replicate a c ++ v :: List.replicate b c).sum =
      (a : ℚ) * c + (v + (b : ℚ) * c) := by
    rw [List.sum_append, List.sum_cons, List.sum_replicate, List.sum_replicate,
      nsmul_eq_mul, nsmul_eq_mul]
  have hN0' : (N : ℚ) ≠ 0 := ne_of_gt hN0
  have hrw : ((a : ℚ) * c + (v + (b : ℚ) * c)) / (N : ℚ) - c = (v - c) / (N : ℚ) := by
    field_simp
    linear_combination c * hq
  rw [hsum, hlen, hrw, abs_div, abs_of_pos hN0]

lemma MovingAverageFilter.ma_outputs_cons (f : MovingAverageFilter) (x : ℚ)
    (xs : List ℚ) :
    f.outputs (x :: xs) = (f.update x).2 :: (f.update x).1.outputs xs := rfl

lemma MovingAverageFilter.update_mk (N : ℕ) (w : List ℚ) (x : ℚ) :
    ((⟨N, w⟩ : MovingAverageFilter).update x).1 =
      ⟨N, ((x :: w).take N : List ℚ)⟩ := rfl

lemma MovingAverageFilter.run_mk_cons (N : ℕ) (w : List ℚ) (x : ℚ)
    (xs : List ℚ) :
    (⟨N, w⟩ : MovingAverageFilter).run (x :: xs) =
      (⟨N, ((x :: w).take N : List ℚ)⟩ : MovingAverageFilter).run xs := rfl

lemma MovingAverageFilter.update_mean (f : MovingAverageFilter) (x : ℚ) :
    (f.update x).2 =
      (f.update x).1.window.sum / (((f.update x).1.window.length : ℕ) : ℚ) := rfl

/-- Window after feeding `k` copies of `c` and one more `c` from an arbitrary
starting window: the newest `k + 1` constants followed by the survivors of the
old window, truncated to the capacity. -/
lemma MovingAverageFilter.run_update_window (N : ℕ) (c : ℚ) :
    ∀ (k : ℕ) (w : List ℚ),
    ((((⟨N, w⟩ : MovingAverageFilter).run (List.replicate k c)).update c).1).window =
      (List.replicate (k + 1) c ++ w).take N := by
  intro k
  induction k with
  | zero => intro w; rfl
  | succ j ih =>
      intro w
      rw [List.replicate_succ, MovingAverageFilter.run_mk_cons,
        ih ((c :: w).take N), take_absorb,
        List.append_cons, ← List.replicate_succ']

lemma MovingAverageFilter.update_outlier_state (N : ℕ) (hN : 1 ≤ N) (c v : ℚ) :
    ((⟨N, List.replicate N c⟩ : MovingAverageFilter).update v).1 =
      ⟨N, (v :: List.replicate (N - 1) c : List ℚ)⟩ := by
  rw [MovingAverageFilter.update_mk]
  obtain ⟨n, rfl⟩ : ∃ n, N = n + 1 := ⟨N - 1, by omega⟩
  congr 1
  rw [List.take_succ_cons, List.take_replicate, min_eq_left (Nat.le_succ n),
    Nat.add_sub_cancel]

/-- Mean of the truncation `take N (cⁱ ++ v :: c^(N-1))`, the window `i ≥ 1`
constant steps after the outlier: deviation at most `|v - c| / N` (zero once
the outlier has been evicted). -/
lemma mean_take_outlier (N i : ℕ) (hN : 1 ≤ N) (hi : 1 ≤ i) (c v : ℚ) :
    |((List.replicate i c ++ v :: List.replicate (N - 1) c).take N).sum /
      ((((List.replicate i c ++ v :: List.replicate (N - 1) c).take N).length : ℕ) : ℚ) - c| ≤
      |v - c| / (N : ℚ) := by
  rcases le_or_lt N i with h | h
  · have htake : (List.replicate i c ++ v :: List.replicate (N - 1) c).take N =
        List.replicate N c := by
      rw [List.take_append_eq_append_take, List.take_replicate, min_eq_left h,
        List.length_replicate, Nat.sub_eq_zero_of_le h, List.take_zero,
        List.append_nil]
    rw [htake, mean_replicate N hN c, sub_self, abs_zero]
    positivity
  · obtain ⟨d, hd⟩ : ∃ d, N - i = d + 1 := ⟨N - i - 1, by omega⟩
    have htake : (List.replicate i c ++ v :: List.replicate (N - 1) c).take N =
        List.replicate i c ++ v :: List.replicate d c := by
      rw [List.take_append_eq_append_take, List.take_replicate,
        min_eq_right (le_of_lt h), List.length_replicate, hd,
        List.take_succ_cons, List.take_replicate,
        min_eq_left (by omega : d ≤ N - 1)]
    rw [htake]
    exact le_of_eq (mean_outlier N i d c v (by omega))

lemma SimpleKalmanFilter.outputs_cons (s : SimpleKalmanFilter) (m : ℚ)
    (ms : List ℚ) :
    s.outputs (m :: ms) = (s.update m).2 :: (s.update m).1.outputs ms := rfl

/-- An initialized simple Kalman filter whose estimate already equals `c`
returns `c` on every further update of the constant stream `c`. -/
lemma SimpleKalmanFilter.outputs_const (c : ℚ) :
    ∀ (n : ℕ) (s : SimpleKalmanFilter), s.initialized = true → s.estimate = c →
    s.outputs (List.replicate n c) = List.replicate n c := by
  intro n
  induction n with
  | zero => intro s _ _; rfl
  | succ k ih =>
      intro s hi he
      rw [List.replicate_succ, SimpleKalmanFilter.outputs_cons]
      have h2 : (s.update c).2 = c ∧ (s.update c).1.estimate = c ∧
          (s.update c).1.initialized = true := by
        simp [SimpleKalmanFilter.update, hi, he]
      rw [h2.1, ih (s.update c).1 h2.2.2 h2.2.1]

lemma SimpleKalmanFilter.outputs_const_fresh (q r c : ℚ) (n : ℕ) :
    (SimpleKalmanFilter.init q r).outputs (List.replicate n c) =
      List.replicate n c := by
  cases n with
  | zero => rfl
  | succ k =>
      rw [List.replicate_succ, SimpleKalmanFilter.outputs_cons]
      have h1 : (SimpleKalmanFilter.init q r).update c =
          ((⟨q, r, c, 1, true⟩ : SimpleKalmanFilter), c) := by
        simp [SimpleKalmanFilter.init, SimpleKalmanFilter.update]
      rw [h1]
      exact congrArg (List.cons c)
        (SimpleKalmanFilter.outputs_const c k ⟨q, r, c, 1, true⟩ rfl rfl)

lemma MovingAverageFilter.ma_outputs_const (N : ℕ) (hN : 1 ≤ N) (c : ℚ) :
    ∀ (n k : ℕ), (⟨N, List.replicate k c⟩ : MovingAverageFilter).outputs
      (List.replicate n c) = List.replicate n c := by
  intro n
  induction n with
  | zero => intro k; rfl
  | succ j ih =>
      intro k
      rw [List.replicate_succ, MovingAverageFilter.ma_outputs_cons]
      have hw : ((⟨N, List.replicate k c⟩ : MovingAverageFilter).update c).1 =
          ⟨N, (List.replicate (min N (k + 1)) c : List ℚ)⟩ := by
        rw [MovingAverageFilter.update_mk]
        congr 1
        rw [← List.replicate_succ, List.take_replicate]
      have hout : ((⟨N, List.replicate k c⟩ : MovingAverageFilter).update c).2 = c := by
        rw [MovingAverageFilter.update_mean, hw]
        exact mean_replicate (min N (k + 1)) (by omega) c
      rw [hout, hw, ih (min N (k + 1))]

lemma ExponentialMovingAverageFilter.ema_outputs_cons
    (s : ExponentialMovingAverageFilter) (x : ℚ) (xs : List ℚ) :
    s.outputs (x :: xs) = (s.update x).2 :: (s.update x).1.outputs xs := rfl

lemma ExponentialMovingAverageFilter.ema_outputs_const (c : ℚ) :
    ∀ (n : ℕ) (s : ExponentialMovingAverageFilter), s.initialized = true →
    s.estimate = c →
    s.outputs (List.replicate n c) = List.replicate n c := by
  intro n
  induction n with
  | zero => intro s _ _; rfl
  | succ k ih =>
      intro s hi he
      rw [List.replicate_succ, ExponentialMovingAverageFilter.ema_outputs_cons]
      have hac : s.alpha * c + (1 - s.alpha) * c = c := by ring
      have h2 : (s.update c).2 = c ∧ (s.update c).1.estimate = c ∧
          (s.update c).1.initialized = true := by
        simp [ExponentialMovingAverageFilter.update, hi, he, hac]
      rw [h2.1, ih (s.update c).1 h2.2.2 h2.2.1]

lemma ExponentialMovingAverageFilter.ema_outputs_const_fresh (a c : ℚ) (n : ℕ) :
    (⟨a, 0, false⟩ : ExponentialMovingAverageFilter).outputs
      (List.replicate n c) = List.replicate n c := by
  cases n with
  | zero => rfl
  | succ k =>
      rw [List.replicate_succ, ExponentialMovingAverageFilter.ema_outputs_cons]
      have h1 : (⟨a, 0, false⟩ : ExponentialMovingAverageFilter).update c =
          ((⟨a, c, true⟩ : ExponentialMovingAverageFilter), c) := by
        simp [ExponentialMovingAverageFilter.update]
      rw [h1]
      exact congrArg (List.cons c)
        (ExponentialMovingAverageFilter.ema_outputs_const c k ⟨a, c, true⟩ rfl rfl)

/-- C7: fed the constant stream `c` from construction, every filter the
repository gives an update for outputs exactly `c` at every step — the
`SimpleKalmanFilter` of src (the claim's "in particular" case), and the
spec-modelled Moving Average (window `N ≥ 1`) and Exponential Moving Average
filters.  Exact equality from the first sample onward implies the claimed
bounded-time convergence. -/
theorem constant_stream_exact (c q r a : ℚ) (N n : ℕ) (hN : 1 ≤ N) :
    (SimpleKalmanFilter.init q r).outputs (List.replicate n c) =
      List.replicate n c ∧
    (⟨N, []⟩ : MovingAverageFilter).outputs (List.replicate n c) =
      List.replicate n c ∧
    (⟨a, 0, false⟩ : ExponentialMovingAverageFilter).outputs
      (List.replicate n c) = List.replicate n c :=
  ⟨SimpleKalmanFilter.outputs_const_fresh q r c n,
   MovingAverageFilter.ma_outputs_const N hN c n 0,
   ExponentialMovingAverageFilter.ema_outputs_const_fresh a c n⟩

/-- Witness for C7 at `c = 2`, simple Kalman parameters `(1, 10)`, window
size `10`, `alpha = 1/2`, stream length `3`. -/
theorem constant_stream_exact_witness :
    (SimpleKalmanFilter.init 1 10).outputs (List.replicate 3 2) =
      List.replicate 3 2 ∧
    (⟨10, []⟩ : MovingAverageFilter).outputs (List.replicate 3 2) =
      List.replicate 3 2 ∧
    (⟨1/2, 0, false⟩ : ExponentialMovingAverageFilter).outputs
      (List.replicate 3 2) = List.replicate 3 2 :=
  constant_stream_exact 2 1 10 (1/2) 10 3 (by norm_num)

/-- C8 counterexample: before the window fills the claimed bound fails.  A
fresh Moving Average filter with window size `3` fed the outlier `6` and then
the constant `0` outputs `3` at the second step, which exceeds the claimed
bound `(6 - 0)/3 = 2`. -/
theorem movingAverage_outlier_counterexample :
    ¬ ((((⟨3, []⟩ : MovingAverageFilter).update 6).1.update 0).2 - 0 ≤
        (6 - 0) / 3) := by
  have h1 : ((⟨3, []⟩ : MovingAverageFilter).update 6).1 =
      ⟨3, ([6] : List ℚ)⟩ := rfl
  rw [h1]
  have h2 : ((⟨3, ([6] : List ℚ)⟩ : MovingAverageFilter).update 0).2 =
      (0 + (6 + 0)) / (((2 : ℕ) : ℚ)) := rfl
  rw [h2]
  norm_num

/-- C8 amended: for the Moving Average filter with window size `N ≥ 1`:
feeding `N` identical values `c` after any history yields output exactly `c`;
and provided the window is already full of `c` when a single outlier `v`
arrives, the output deviates from `c` by at most `|v - c| / N` at the outlier
step and at every subsequent step of the otherwise constant-`c` stream
(before the window fills, a lone outlier can perturb the output by more, as
the counterexample shows). -/
theorem movingAverage_flush_and_outlier (N : ℕ) (hN : 1 ≤ N) (c v : ℚ)
    (w : List ℚ) (j : ℕ) :
    (((⟨N, w⟩ : MovingAverageFilter).run (List.replicate (N - 1) c)).update c).2 = c ∧
    |((⟨N, List.replicate N c⟩ : MovingAverageFilter).update v).2 - c| ≤
      |v - c| / (N : ℚ) ∧
    |((((⟨N, List.replicate N c⟩ : MovingAverageFilter).update v).1.run
        (List.replicate j c)).update c).2 - c| ≤ |v - c| / (N : ℚ) := by
  refine ⟨?_, ?_, ?_⟩
  · have hwin := MovingAverageFilter.run_update_window N c (N - 1) w
    rw [show N - 1 + 1 = N from by omega, take_append_replicate_self] at hwin
    rw [MovingAverageFilter.update_mean, hwin]
    exact mean_replicate N hN c
  · rw [MovingAverageFilter.update_mean,
      MovingAverageFilter.update_outlier_state N hN c v]
    exact le_of_eq (mean_outlier N 0 (N - 1) c v (by omega))
  · rw [MovingAverageFilter.update_outlier_state N hN c v,
      MovingAverageFilter.update_mean,
      MovingAverageFilter.run_update_window N c j (v :: List.replicate (N - 1) c)]
    exact mean_take_outlier N (j + 1) hN (by omega) c v

/-- Witness for the amended C8 at `N = 2`, `c = 0`, `v = 6`, prior history
window `[9]`, `j = 3` further constant samples. -/
theorem movingAverage_flush_and_outlier_witness :
    (((⟨2, ([9] : List ℚ)⟩ : MovingAverageFilter).run
        (List.replicate (2 - 1) 0)).update 0).2 = 0 ∧
    |((⟨2, List.replicate 2 0⟩ : MovingAverageFilter).update 6).2 - 0| ≤
      |6 - 0| / ((2 : ℕ) : ℚ) ∧
    |((((⟨2, List.replicate 2 0⟩ : MovingAverageFilter).update 6).1.run
        (List.replicate 3 0)).update 0).2 - 0| ≤ |6 - 0| / ((2 : ℕ) : ℚ) :=
  movingAverage_flush_and_outlier 2 (by norm_num) 0 6 [9] 3

end ScaleFilter
